import Mathlib

/-!
Verification of the WebAssembly-to-Luau code generator in
`src/codegen-luau/src/gen.rs` (repository Rerumu/wlausam).

The generator is a tree-directed text emitter: it walks a structured wasm
AST (provided by the external `wasm_ast` crate) and appends Luau source
text to a writer.  We embed the emitter shallowly: the writer becomes a
`String` accumulator, each Rust `visit` method becomes a Lean function
returning the text it appends (and the updated visitor state, mirroring
the `&mut Visitor` argument), and the module walk becomes a pure function
from a module value to the produced program text.

External collaborator crates (the analyzer passes `localize::visit` and
`memory::visit`, and the host float formatter used by `write!("{:e}")`)
are not part of this repository's source; they enter the embedding as
components of an `Externals` record that every theorem quantifies over.

Machine integers: all Rust `usize`/`u32` values are modelled as `Nat`.
`usize` subtraction in `write_br_at` (`len - 1 - up`) panics in Rust on
underflow; `Nat` subtraction truncates instead, so theorems about that
path carry the wasm-validity bound `up < len`.  `saturating_sub` agrees
with `Nat` subtraction exactly.  Rust panics (`unwrap`) on the module
sections are modelled with `Option`: `transpile` returns `none` exactly
where the Rust code would panic.
-/

namespace Wlausam

/-- Label kinds pushed on the visitor's stack (`enum Label` in gen.rs). -/
inductive Label where
  | forward
  | backward
  | ifElse
deriving DecidableEq

/-- `struct Visitor { label_list: Vec<Label>, num_param: usize }`.
The head of `label_list` is the innermost label (the last element of the
Rust `Vec`). -/
structure Visitor where
  label_list : List Label
  num_param : Nat
deriving DecidableEq

/-- `Visitor::default()`. -/
def Visitor.default : Visitor := ⟨[], 0⟩

/-- `label_list.push(label)`; `push_label`'s return value is the index of
the pushed label, which equals `v.label_list.length` before the push. -/
def Visitor.push (v : Visitor) (l : Label) : Visitor :=
  ⟨l :: v.label_list, v.num_param⟩

/-- `label_list.pop().unwrap()`.  Every call site pops a label pushed by
the same `visit` method, and the body in between restores the stack (see
the balance lemmas below), so the list is never empty and `tail` is
exact. -/
def Visitor.pop (v : Visitor) : Visitor :=
  ⟨v.label_list.tail, v.num_param⟩

/-- Typed literal carried by a `Value` AST node.  Floats are carried as
their IEEE-754 bit patterns (a `Nat`), which is all the formatter
inspects apart from the host's finite-value rendering. -/
inductive Value where
  | i32 (v : Int)
  | i64 (v : Int)
  | f32 (bits : Nat)
  | f64 (bits : Nat)
deriving DecidableEq

/-- Expression AST of the `wasm_ast` crate, restricted to the fields the
emitter reads.  Operator discriminators are carried as the strings the
emitter obtains from them: `as_name()` (a `(category, name)` pair, or a
single name for loads/stores) and, for binary operators, the optional
native spelling `as_operator()`. -/
inductive Expression where
  | recall (var : Nat)
  | select (cond a b : Expression)
  | getLocal (var : Nat)
  | getGlobal (var : Nat)
  | anyLoad (opName : String) (pointer : Expression) (offset : Nat)
  | memorySize (memory : Nat)
  | memoryGrow (memory : Nat) (value : Expression)
  | value (v : Value)
  | anyUnOp (opName : String × String) (rhs : Expression)
  | anyBinOp (opOperator : Option String) (opName : String × String)
      (lhs rhs : Expression)
  | anyCmpOp (opName : String × String) (lhs rhs : Expression)
deriving DecidableEq

/-- Statement AST of the `wasm_ast` crate.  `If.falsey` is an optional
`Else` node whose only field is its body. -/
inductive Statement where
  | unreachable
  | memorize (var : Nat) (value : Expression)
  | forward (body : List Statement)
  | backward (body : List Statement)
  | ifStat (cond : Expression) (truthy : List Statement)
      (falsey : Option (List Statement))
  | br (target : Nat)
  | brIf (cond : Expression) (target : Nat)
  | brTable (cond : Expression) (table : List Nat) (dflt : Nat)
  | ret (list : List Expression)
  | call (func : Nat) (result : Nat × Nat) (param_list : List Expression)
  | callIndirect (table : Nat) (index : Expression) (result : Nat × Nat)
      (param_list : List Expression)
  | setLocal (var : Nat) (value : Expression)
  | setGlobal (var : Nat) (value : Expression)
  | anyStore (opName : String) (pointer : Expression) (offset : Nat)
      (value : Expression)

/-- One group of local slots (`parity_wasm` `Local`): a count and the
display text of its value type (`i32`, `i64`, `f32`, `f64`). -/
structure LocalData where
  count : Nat
  value_type : String
deriving DecidableEq

/-- `wasm_ast` `Function`: the builder's structured output.  Its `code`
field is a `Forward` node; we carry that node's body. -/
structure Function where
  num_param : Nat
  local_data : List LocalData
  num_stack : Nat
  code_body : List Statement

/-- External collaborators of the generator, quantified over by every
theorem: the two analyzer passes of the sibling `analyzer` module (whose
source is outside this repository's snapshot) and the host formatter
behind `write!(w, "{:e} ", f)` for finite floats (including the trailing
space).  The formatters receive the float's bit pattern. -/
structure Externals where
  fmtF32 : Nat → String
  fmtF64 : Nat → String
  localizeVisit : Function → List (String × String)
  memoryVisit : Function → List Nat

/-- Sign bit of an f32 bit pattern (`f32::is_sign_negative`). -/
def f32_sign (bits : Nat) : Bool := 2 ^ 31 ≤ bits % 2 ^ 32

/-- `f32::is_infinite`: exponent all ones, mantissa zero. -/
def f32_infinite (bits : Nat) : Bool := bits % 2 ^ 31 = 0x7F800000

/-- `f32::is_nan`: exponent all ones, mantissa nonzero. -/
def f32_nan (bits : Nat) : Bool := 0x7F800000 < bits % 2 ^ 31

/-- Sign bit of an f64 bit pattern (`f64::is_sign_negative`). -/
def f64_sign (bits : Nat) : Bool := 2 ^ 63 ≤ bits % 2 ^ 64

/-- `f64::is_infinite`. -/
def f64_infinite (bits : Nat) : Bool := bits % 2 ^ 63 = 0x7FF0000000000000

/-- `f64::is_nan`. -/
def f64_nan (bits : Nat) : Bool := 0x7FF0000000000000 < bits % 2 ^ 63

/-- `fn write_f32` of gen.rs, on the bit pattern of the float. -/
def write_f32 (ext : Externals) (bits : Nat) : String :=
  let sign := if f32_sign bits then "-" else ""
  if f32_infinite bits then sign ++ "math.huge "
  else if f32_nan bits then sign ++ "0/0 "
  else ext.fmtF32 bits

/-- `fn write_f64` of gen.rs. -/
def write_f64 (ext : Externals) (bits : Nat) : String :=
  let sign := if f64_sign bits then "-" else ""
  if f64_infinite bits then sign ++ "math.huge "
  else if f64_nan bits then sign ++ "0/0 "
  else ext.fmtF64 bits

/-- `Value` rendering in `impl Driver for Value`. -/
def write_value (ext : Externals) : Value → String
  | .i32 i => toString i ++ " "
  | .i64 i => toString i ++ " "
  | .f32 bits => write_f32 ext bits
  | .f64 bits => write_f64 ext bits

/-- `fn write_in_order`: `tag_0, tag_1, ...` up to `len` names, nothing
when `len = 0`. -/
def write_in_order (tag : String) (len : Nat) : String :=
  if len = 0 then "" else
    (List.range' 1 (len - 1)).foldl
      (fun acc i => acc ++ ", " ++ tag ++ "_" ++ toString i)
      (tag ++ "_" ++ toString 0)

/-- `fn write_list`: the preallocation statement.  `saturating_sub(1)`
coincides with `Nat` subtraction. -/
def write_list (name : String) (len : Nat) : String :=
  "local " ++ name ++ " = table.create(" ++ toString (len - 1) ++ ")"

/-- `fn write_parameter_list`. -/
def write_parameter_list (f : Function) : String :=
  "function(" ++ write_in_order ("param") f.num_param ++ ")"

/-- `fn write_result_list`: the `reg_a, ..., reg_b = ` binding for a
result range, nothing when the range is empty. -/
def write_result_list (result : Nat × Nat) : String :=
  if result.2 ≤ result.1 then "" else
    ((List.range' result.1 (result.2 - result.1)).foldl
      (fun acc i =>
        acc ++ (if i ≠ result.1 then ", " else "") ++ "reg_" ++ toString i)
      "") ++ " = "

/-- `fn write_variable_list`: local-slot groups with their zero
initializers, then the register block. -/
def write_variable_list (f : Function) : String :=
  (f.local_data.foldl
    (fun acc data =>
      acc ++ "local " ++ write_in_order ("loc") data.count ++ " = " ++
        (List.range data.count).foldl
          (fun acc2 i =>
            acc2 ++ (if i ≠ 0 then ", " else "") ++ "ZERO_" ++
              data.value_type ++ " ")
          "")
    "") ++
  (if f.num_stack ≠ 0 then
    "local " ++ write_in_order ("reg") f.num_stack ++ " " else "")

/-- `fn write_variable`: `loc_{var - num_param}` when `checked_sub`
succeeds, else `param_{var}`. -/
def write_variable (var : Nat) (v : Visitor) : String :=
  if v.num_param ≤ var then "loc_" ++ toString (var - v.num_param) ++ " "
  else "param_" ++ toString var ++ " "

/-- The `parity_wasm` instruction sequence of a constant expression.
`unsupported` stands for every instruction hit by the `_ => continue`
arm of `write_expression`; the discriminant is irrelevant to the
emitter. -/
inductive Instruction where
  | i32Const (v : Int)
  | i64Const (v : Int)
  | f32Const (bits : Nat)
  | f64Const (bits : Nat)
  | getGlobal (i : Nat)
  | unsupported (code : Nat)
deriving DecidableEq

/-- The match arms inside `fn write_expression`: the text written for a
supported instruction, `none` for the `_ => continue` arm. -/
def write_inst (ext : Externals) : Instruction → Option String
  | .i32Const v => some (toString v ++ " ")
  | .i64Const v => some (toString v ++ " ")
  | .f32Const bits => some (write_f32 ext bits)
  | .f64Const bits => some (write_f64 ext bits)
  | .getGlobal i => some ("GLOBAL_LIST[" ++ toString i ++ "].value ")
  | .unsupported _ => none

/-- `fn write_expression`: emit the first supported instruction and stop;
if none is supported (or the sequence is empty), emit the runtime
error call. -/
def write_expression (ext : Externals) : List Instruction → String
  | [] => "error(\"mundane expression\")"
  | inst :: rest =>
    match write_inst ext inst with
    | some s => s
    | none => write_expression ext rest

/-- `fn br_target`: the branch gadget text, parameterized by the compared
level and whether a `continue` is inserted. -/
def br_target (level : Nat) (in_loop : Bool) : String :=
  "if desired then " ++
  "if desired == " ++ toString level ++ " then " ++
  "desired = nil " ++
  (if in_loop then "continue " else "") ++
  "end " ++
  "break " ++
  "end "

/-- `Visitor::write_br_gadget`, reading the label stack as it is after
the pop (`label_list.last()` is the head of our list). -/
def write_br_gadget (v : Visitor) (rem : Nat) : String :=
  match v.label_list.head? with
  | some .forward => br_target rem false
  | some .ifElse => br_target rem false
  | some .backward => br_target rem true
  | none => ""

/-- `fn write_br_at`.  Rust computes `label_list.len() - 1 - up` in
`usize`, panicking on underflow; `Nat` subtraction truncates there, so
statements about the `up > 0` branch assume `up < len`. -/
def write_br_at (up : Nat) (v : Visitor) : String :=
  "do " ++
  (if up = 0 then
    match v.label_list.head? with
    | some .backward => "continue "
    | _ => "break "
  else
    "desired = " ++ toString (v.label_list.length - 1 - up) ++ " " ++
    "break ") ++
  "end "

/-- Expression emission (`impl Driver for ...` on expression nodes).
Expressions never touch the label stack; only `num_param` is read, by
`write_variable`. -/
def exprVisit (ext : Externals) (v : Visitor) : Expression → String
  | .recall var => "reg_" ++ toString var ++ " "
  | .select c a b =>
      "(" ++ exprVisit ext v c ++ "~= 0 and " ++ exprVisit ext v a ++
        "or " ++ exprVisit ext v b ++ ")"
  | .getLocal var => write_variable var v
  | .getGlobal var => "GLOBAL_LIST[" ++ toString var ++ "].value "
  | .anyLoad opName pointer offset =>
      "load_" ++ opName ++ "(memory_at_0, " ++ exprVisit ext v pointer ++
        "+ " ++ toString offset ++ ")"
  | .memorySize memory => "memory_at_" ++ toString memory ++ ".min "
  | .memoryGrow memory value =>
      "rt.allocator.grow(memory_at_" ++ toString memory ++ ", " ++
        exprVisit ext v value ++ ")"
  | .value val => write_value ext val
  | .anyUnOp opName rhs =>
      opName.1 ++ "_" ++ opName.2 ++ "(" ++ exprVisit ext v rhs ++ ")"
  | .anyBinOp opOperator opName lhs rhs =>
      match opOperator with
      | some op =>
          "(" ++ exprVisit ext v lhs ++ op ++ " " ++ exprVisit ext v rhs ++ ")"
      | none =>
          opName.1 ++ "_" ++ opName.2 ++ "(" ++ exprVisit ext v lhs ++
            ", " ++ exprVisit ext v rhs ++ ")"
  | .anyCmpOp opName lhs rhs =>
      opName.1 ++ "_" ++ opName.2 ++ "(" ++ exprVisit ext v lhs ++ ", " ++
        exprVisit ext v rhs ++ ")"

/-- `fn write_expr_list`: comma-separated expression list. -/
def write_expr_list (ext : Externals) (v : Visitor)
    (list : List Expression) : String :=
  (list.enum).foldl
    (fun acc p =>
      acc ++ (if p.1 ≠ 0 then ", " else "") ++ exprVisit ext v p.2)
    ""

mutual

/-- Statement emission (`impl Driver for Statement` and the per-node
impls): the text appended and the visitor state after the visit. -/
def stmtVisit (ext : Externals) : Statement → Visitor → String × Visitor
  | .unreachable, v => ("error(\"out of code bounds\")", v)
  | .memorize var value, v =>
      ("reg_" ++ toString var ++ " = " ++ exprVisit ext v value, v)
  | .forward body, v =>
      let p := stmtListVisit ext body (v.push .forward)
      ("while true do " ++ p.1 ++ "break " ++ "end " ++
        write_br_gadget p.2.pop (v.label_list.length), p.2.pop)
  | .backward body, v =>
      let p := stmtListVisit ext body (v.push .backward)
      ("while true do " ++ p.1 ++ "break " ++ "end " ++
        write_br_gadget p.2.pop (v.label_list.length), p.2.pop)
  | .ifStat cond truthy falsey, v =>
      let v1 := v.push .ifElse
      let pt := stmtListVisit ext truthy v1
      let pe := elseVisit ext falsey pt.2
      ("while true do " ++ "if " ++ exprVisit ext v1 cond ++ "~= 0 then " ++
        pt.1 ++ pe.1 ++ "end " ++ "break " ++ "end " ++
        write_br_gadget pe.2.pop (v.label_list.length), pe.2.pop)
  | .br target, v => (write_br_at target v, v)
  | .brIf cond target, v =>
      ("if " ++ exprVisit ext v cond ++ "~= 0 then " ++
        write_br_at target v ++ "end ", v)
  | .brTable cond table dflt, v =>
      ("do " ++ "local temp = \x7b" ++
        (if table.isEmpty then "" else
          "[0] =" ++ table.foldl (fun acc d => acc ++ toString d ++ ", ") "") ++
        "\x7d " ++ "desired = temp[" ++ exprVisit ext v cond ++ "] or " ++
        toString dflt ++ " " ++ "break " ++ "end ", v)
  | .ret list, v =>
      ("do return " ++ write_expr_list ext v list ++ "end ", v)
  | .call func result param_list, v =>
      (write_result_list result ++ "FUNC_LIST[" ++ toString func ++ "](" ++
        write_expr_list ext v param_list ++ ")", v)
  | .callIndirect table index result param_list, v =>
      (write_result_list result ++ "TABLE_LIST[" ++ toString table ++
        "].data[" ++ exprVisit ext v index ++ "](" ++
        write_expr_list ext v param_list ++ ")", v)
  | .setLocal var value, v =>
      (write_variable var v ++ "= " ++ exprVisit ext v value, v)
  | .setGlobal var value, v =>
      ("GLOBAL_LIST[" ++ toString var ++ "].value = " ++
        exprVisit ext v value, v)
  | .anyStore opName pointer offset value, v =>
      ("store_" ++ opName ++ "(memory_at_0, " ++ exprVisit ext v pointer ++
        "+ " ++ toString offset ++ ", " ++ exprVisit ext v value ++ ")", v)

/-- `body.iter().try_for_each(|s| s.visit(v, w))`. -/
def stmtListVisit (ext : Externals) :
    List Statement → Visitor → String × Visitor
  | [], v => ("", v)
  | s :: rest, v =>
      let p := stmtVisit ext s v
      let q := stmtListVisit ext rest p.2
      (p.1 ++ q.1, q.2)

/-- The optional `Else` arm of an `If` (`impl Driver for Else`). -/
def elseVisit (ext : Externals) :
    Option (List Statement) → Visitor → String × Visitor
  | none, v => ("", v)
  | some body, v =>
      let p := stmtListVisit ext body v
      ("else " ++ p.1, p.2)

end

/-- `impl Driver for Function`: parameter list, memory aliases, locals,
then the body (a `Forward` node) with `num_param` set, then `end `. -/
def funcVisit (ext : Externals) (f : Function) (v : Visitor) :
    String × Visitor :=
  let v1 : Visitor := ⟨v.label_list, f.num_param⟩
  let p := stmtVisit ext (.forward f.code_body) v1
  (write_parameter_list f ++
    (ext.memoryVisit f).foldl
      (fun acc i =>
        acc ++ "local memory_at_" ++ toString i ++ " = MEMORY_LIST[" ++
          toString i ++ "]")
      "" ++
    write_variable_list f ++ p.1 ++ "end ", p.2)

/-- Kind of an import entry (`parity_wasm` `External`, payload unused by
the generator beyond kind filtering). -/
inductive ExternalKind where
  | func
  | table
  | memory
  | globalK
deriving DecidableEq

/-- `parity_wasm` `ImportEntry`, restricted to the fields read. -/
structure ImportEntry where
  module : String
  field : String
  kind : ExternalKind
deriving DecidableEq

/-- `parity_wasm` `Internal`: an export target. -/
inductive Internal where
  | func (v : Nat)
  | table (v : Nat)
  | memory (v : Nat)
  | globalI (v : Nat)
deriving DecidableEq

/-- `parity_wasm` `ExportEntry`. -/
structure ExportEntry where
  field : String
  internal : Internal
deriving DecidableEq

/-- `parity_wasm` `ResizableLimits`. -/
structure ResizableLimits where
  initial : Nat
  maximum : Option Nat
deriving DecidableEq

/-- `parity_wasm` `ElementSegment`: target table index, optional offset
constant expression, member function indices. -/
structure ElementSegment where
  index : Nat
  offset : Option (List Instruction)
  members : List Nat
deriving DecidableEq

/-- `parity_wasm` `DataSegment`: target memory index, optional offset
constant expression, raw bytes. -/
structure DataSegment where
  index : Nat
  offset : Option (List Instruction)
  value : List Nat
deriving DecidableEq

/-- The decoded module, restricted to the accessors `Generator` reads.
`names` models the function-name lookup of the names section; absent
names are simply missing entries.  `code_section` carries the structured
functions the external `wasm_ast::builder::Builder` (a total conversion)
produces from the code-section bodies, so its absence is exactly the
`code_section().unwrap()` panic site. -/
structure Module where
  names : List (Nat × String)
  import_section : Option (List ImportEntry)
  function_section : Option (List Nat)
  table_section : Option (List ResizableLimits)
  memory_section : Option (List ResizableLimits)
  global_section : Option (List (List Instruction))
  export_section : Option (List ExportEntry)
  elements_section : Option (List ElementSegment)
  code_section : Option (List Function)
  data_section : Option (List DataSegment)
  start_section : Option Nat

/-- `fn aux_internal_index`. -/
def aux_internal_index : Internal → Nat
  | .func v => v
  | .table v => v
  | .memory v => v
  | .globalI v => v

/-- `parity_wasm` `Module::import_count`: imports of one kind. -/
def import_count (m : Module) (k : ExternalKind) : Nat :=
  ((m.import_section.getD []).filter (fun e => e.kind == k)).length

/-- `parity_wasm` `Module::functions_space`: imports plus definitions. -/
def functions_space (m : Module) : Nat :=
  import_count m .func + (m.function_section.getD []).length

/-- `parity_wasm` `Module::table_space`. -/
def table_space (m : Module) : Nat :=
  import_count m .table + (m.table_section.getD []).length

/-- `parity_wasm` `Module::memory_space`. -/
def memory_space (m : Module) : Nat :=
  import_count m .memory + (m.memory_section.getD []).length

/-- `parity_wasm` `Module::globals_space`. -/
def globals_space (m : Module) : Nat :=
  import_count m .globalK + (m.global_section.getD []).length

/-- `TypeInfo::len_ex` of the `wasm_ast` builder: the number of imported
functions, used as the index offset for defined functions. -/
def len_ex (m : Module) : Nat := import_count m .func

/-- `fn new_limit_max`. -/
def new_limit_max (l : ResizableLimits) : String :=
  match l.maximum with
  | some v => toString v
  | none => "0xFFFF"

/-- `fn write_table_init`. -/
def write_table_init (l : ResizableLimits) : String :=
  "\x7b min = " ++ toString l.initial ++ ", max = " ++ new_limit_max l ++
    ", data = \x7b\x7d \x7d"

/-- `fn write_memory_init`. -/
def write_memory_init (l : ResizableLimits) : String :=
  "rt.allocator.new(" ++ toString l.initial ++ ", " ++ new_limit_max l ++ ")"

/-- `fn write_func_name`: the `FUNC_LIST[i] =` prefix with the optional
names-section comment. -/
def write_func_name (m : Module) (index offset : Nat) : String :=
  "FUNC_LIST" ++
  (match m.names.lookup index with
   | some name => "--[[" ++ name ++ "]]"
   | none => "") ++
  "[" ++ toString (index + offset) ++ "] ="

/-- Strict lexicographic order on `(category, name)` pairs, as the
ordering of `BTreeSet<(String, String)>`.  Characters are compared
through `String.data` so the order is decidable by evaluation. -/
def pairLt (a b : String × String) : Prop :=
  a.1.data < b.1.data ∨ (a.1 = b.1 ∧ a.2.data < b.2.data)

instance : DecidablePred (fun p : (String × String) × (String × String) =>
    pairLt p.1 p.2) := by
  intro p
  unfold pairLt
  infer_instance

instance (a b : String × String) : Decidable (pairLt a b) := by
  unfold pairLt
  infer_instance

/-- Insertion into the sorted duplicate-free list modelling
`BTreeSet<(String, String)>`. -/
def btreeInsert : List (String × String) → String × String →
    List (String × String)
  | [], x => [x]
  | y :: l, x =>
      if pairLt x y then x :: y :: l
      else if x = y then y :: l
      else y :: btreeInsert l x

/-- The contents of `loc_set` in `Generator::gen_localize`: every pair
returned by the localize analyzer over every function, collected into
the ordered set. -/
def loc_set (ext : Externals) (funcs : List Function) :
    List (String × String) :=
  funcs.foldl (fun s f => (ext.localizeVisit f).foldl btreeInsert s) []

/-- `Generator::gen_localize`: one `local cat_name = rt.cat.name `
binding per collected pair, in set order. -/
def gen_localize (ext : Externals) (funcs : List Function) : String :=
  (loc_set ext funcs).foldl
    (fun acc p =>
      acc ++ "local " ++ p.1 ++ "_" ++ p.2 ++ " = rt." ++ p.1 ++ "." ++
        p.2 ++ " ")
    ""

/-- `Generator::gen_func_list`: each function prefixed with its
`FUNC_LIST[...] =` assignment, visited with a fresh default visitor. -/
def gen_func_list (ext : Externals) (m : Module)
    (funcs : List Function) : String :=
  (funcs.enum).foldl
    (fun acc p =>
      acc ++ write_func_name m p.1 (len_ex m) ++
        (funcVisit ext p.2 Visitor.default).1)
    ""

/-- `Generator::gen_import_of`: the import bindings of one kind. -/
def gen_import_of (m : Module) (lower : String) (k : ExternalKind) :
    String :=
  match m.import_section with
  | none => ""
  | some entries =>
      (((entries.filter (fun e => e.kind == k))).enum).foldl
        (fun acc p =>
          acc ++ lower.toUpper ++ "[" ++ toString p.1 ++ "] = wasm." ++
            p.2.module ++ "." ++ lower ++ "." ++ p.2.field ++ " ")
        ""

/-- `Generator::gen_export_of`: one export sub-table. -/
def gen_export_of (m : Module) (lower : String)
    (cond : Internal → Bool) : String :=
  match m.export_section with
  | none => ""
  | some entries =>
      lower ++ " = \x7b" ++
      ((entries.filter (fun e => cond e.internal)).foldl
        (fun acc e =>
          acc ++ e.field ++ " = " ++ lower.toUpper ++ "[" ++
            toString (aux_internal_index e.internal) ++ "],")
        "") ++
      "\x7d,"

/-- `Generator::gen_import_list`. -/
def gen_import_list (m : Module) : String :=
  gen_import_of m ("func_list") .func ++
  gen_import_of m ("table_list") .table ++
  gen_import_of m ("memory_list") .memory ++
  gen_import_of m ("global_list") .globalK

/-- `Generator::gen_export_list`. -/
def gen_export_list (m : Module) : String :=
  gen_export_of m ("func_list") (fun i => match i with | .func _ => true | _ => false) ++
  gen_export_of m ("table_list") (fun i => match i with | .table _ => true | _ => false) ++
  gen_export_of m ("memory_list") (fun i => match i with | .memory _ => true | _ => false) ++
  gen_export_of m ("global_list") (fun i => match i with | .globalI _ => true | _ => false)

/-- `Generator::gen_table_list`. -/
def gen_table_list (m : Module) : String :=
  match m.table_section with
  | none => ""
  | some entries =>
      (entries.enum).foldl
        (fun acc p =>
          acc ++ "TABLE_LIST[" ++ toString (p.1 + import_count m .table) ++
            "] =" ++ write_table_init p.2)
        ""

/-- `Generator::gen_memory_list`. -/
def gen_memory_list (m : Module) : String :=
  match m.memory_section with
  | none => ""
  | some entries =>
      (entries.enum).foldl
        (fun acc p =>
          acc ++ "MEMORY_LIST[" ++ toString (p.1 + import_count m .memory) ++
            "] =" ++ write_memory_init p.2)
        ""

/-- `Generator::gen_global_list`: each global initializer through
`write_expression`. -/
def gen_global_list (ext : Externals) (m : Module) : String :=
  match m.global_section with
  | none => ""
  | some entries =>
      (entries.enum).foldl
        (fun acc p =>
          acc ++ "GLOBAL_LIST[" ++ toString (p.1 + import_count m .globalK) ++
            "] = \x7b value =" ++ write_expression ext p.2 ++ "\x7d")
        ""

/-- Loop body of `Generator::gen_element_list`.
`v.offset().as_ref().unwrap()` is the panic site modelled by `none`. -/
def elem_step (ext : Externals) (acc : Option String)
    (seg : ElementSegment) : Option String :=
  acc.bind fun s =>
    (seg.offset).map fun off =>
      s ++ "do " ++ "local target = TABLE_LIST[" ++
        toString seg.index ++ "].data " ++ "local offset =" ++
        write_expression ext off ++ "local data = \x7b" ++
        seg.members.foldl
          (fun a i => a ++ "FUNC_LIST[" ++ toString i ++ "],") "" ++
        "\x7d" ++ "table.move(data, 1, #data, offset, target)" ++
        "end "

/-- `Generator::gen_element_list`. -/
def gen_element_list (ext : Externals) (m : Module) : Option String :=
  match m.elements_section with
  | none => some ""
  | some segs => segs.foldl (elem_step ext) (some "")

/-- Two-digit uppercase hex of one nibble. -/
def hex_digit (n : Nat) : String :=
  match n with
  | 0 => "0" | 1 => "1" | 2 => "2" | 3 => "3"
  | 4 => "4" | 5 => "5" | 6 => "6" | 7 => "7"
  | 8 => "8" | 9 => "9" | 10 => "A" | 11 => "B"
  | 12 => "C" | 13 => "D" | 14 => "E" | _ => "F"

/-- `"\x{:02X}"` of one byte. -/
def byte_hex (b : Nat) : String :=
  "\\x" ++ hex_digit (b / 16 % 16) ++ hex_digit (b % 16)

/-- Loop body of `Generator::gen_data_list`.
`v.offset().as_ref().unwrap()` is the panic site modelled by `none`. -/
def data_step (ext : Externals) (acc : Option String)
    (seg : DataSegment) : Option String :=
  acc.bind fun s =>
    (seg.offset).map fun off =>
      s ++ "do " ++ "local target = MEMORY_LIST[" ++
        toString seg.index ++ "]" ++ "local offset =" ++
        write_expression ext off ++ "local data = \"" ++
        seg.value.foldl (fun a b => a ++ byte_hex b) "" ++ "\"" ++
        "rt.allocator.init(target, offset, data)" ++
        "end "

/-- `Generator::gen_data_list`. -/
def gen_data_list (ext : Externals) (m : Module) : Option String :=
  match m.data_section with
  | none => some ""
  | some segs => segs.foldl (data_step ext) (some "")

/-- `Generator::gen_start_point`. -/
def gen_start_point (ext : Externals) (m : Module) : Option String :=
  (gen_element_list ext m).bind fun elems =>
  (gen_data_list ext m).map fun datas =>
    "local function run_init_code()" ++ gen_table_list m ++
      gen_memory_list m ++ gen_global_list ext m ++ elems ++ datas ++
      "end " ++
      "return function(wasm)" ++ gen_import_list m ++ "run_init_code()" ++
      (match m.start_section with
       | some s => "FUNC_LIST[" ++ toString s ++ "]()"
       | none => "") ++
      "return \x7b" ++ gen_export_list m ++ "\x7d end "

/-- `Generator::transpile`: the whole program text, `none` exactly where
the Rust code panics (missing code section via `build_func_list`, or a
missing segment offset inside `gen_start_point`). -/
def transpile (ext : Externals) (m : Module) : Option String :=
  m.code_section.bind fun funcs =>
  (gen_start_point ext m).map fun startp =>
    "local rt = require(script.Runtime)" ++
    gen_localize ext funcs ++
    "local ZERO_i32 = 0 " ++ "local ZERO_i64 = 0 " ++
    "local ZERO_f32 = 0.0 " ++ "local ZERO_f64 = 0.0 " ++
    write_list ("FUNC_LIST") (functions_space m) ++
    write_list ("TABLE_LIST") (table_space m) ++
    write_list ("MEMORY_LIST") (memory_space m) ++
    write_list ("GLOBAL_LIST") (globals_space m) ++
    gen_func_list ext m funcs ++
    startp

/-! ### Spec-side renderings and concrete fixtures

Definitions written from the (amended) spec wording, compared against
the source-side emitters by the claim theorems, plus the concrete
instantiations used by witnesses. -/

/-- The branch gadget as the amended spec describes it: compared level
equal to the length of the label stack after the pop (the index of the
just-popped label), a `continue` exactly when the label remaining
innermost after the pop is a `Backward` loop, and nothing at all when
the stack is empty after the pop. -/
def branch_gadget_amended (v : Visitor) : String :=
  match v.label_list.head? with
  | none => ""
  | some k =>
      "if desired then " ++ "if desired == " ++
        toString v.label_list.length ++ " then " ++ "desired = nil " ++
        (if k = .backward then "continue " else "") ++ "end " ++ "break " ++
        "end "

/-- The body of a `br` of depth `k` as the spec describes it: `continue `
for depth 0 under an innermost `Backward`, `break ` for depth 0
otherwise, and `desired = L - 1 - k ` followed by `break ` for positive
depth under a label stack of length `L`. -/
def br_content_spec (v : Visitor) (k : Nat) : String :=
  if k = 0 then
    match v.label_list.head? with
    | some .backward => "continue "
    | _ => "break "
  else
    "desired = " ++ toString (v.label_list.length - 1 - k) ++ " " ++ "break "

/-- Spec-side: the instructions the constant-expression subset supports
(i32/i64/f32/f64 const and `get_global`). -/
def const_supported : Instruction → Prop
  | .unsupported _ => False
  | _ => True

/-- Trivial instantiation of the external collaborators, used by the
concrete witnesses: a constant finite-float rendering, and analyzers
returning nothing. -/
def ext0 : Externals :=
  ⟨fun _ => "1e0 ", fun _ => "1e0 ", fun _ => [], fun _ => []⟩

/-- The minimal module: every section absent except an empty code
section (used by the concrete witnesses). -/
def m0 : Module :=
  ⟨[], none, none, none, none, none, none, none, some [], none, none⟩

/-! ### Helper lemmas -/

theorem string_append_assoc (a b c : String) :
    a ++ b ++ c = a ++ (b ++ c) := by
  cases a with | mk da =>
  cases b with | mk db =>
  cases c with | mk dc =>
  show String.mk (da ++ db ++ dc) = String.mk (da ++ (db ++ dc))
  rw [List.append_assoc]

mutual

/-- Every statement visit restores the visitor exactly: each label pushed
by `Forward`, `Backward` and `If` is popped before the gadget is
written, and no statement touches `num_param`. -/
theorem stmtVisit_snd (ext : Externals) :
    ∀ (s : Statement) (v : Visitor), (stmtVisit ext s v).2 = v
  | .unreachable, _ => rfl
  | .memorize _ _, _ => rfl
  | .forward body, v => by
      simp only [stmtVisit, stmtListVisit_snd ext body (v.push .forward)]
      rfl
  | .backward body, v => by
      simp only [stmtVisit, stmtListVisit_snd ext body (v.push .backward)]
      rfl
  | .ifStat cond truthy falsey, v => by
      simp only [stmtVisit, stmtListVisit_snd ext truthy (v.push .ifElse),
        elseVisit_snd ext falsey (v.push .ifElse)]
      rfl
  | .br _, _ => rfl
  | .brIf _ _, _ => rfl
  | .brTable _ _ _, _ => rfl
  | .ret _, _ => rfl
  | .call _ _ _, _ => rfl
  | .callIndirect _ _ _ _, _ => rfl
  | .setLocal _ _, _ => rfl
  | .setGlobal _ _, _ => rfl
  | .anyStore _ _ _ _, _ => rfl

theorem stmtListVisit_snd (ext : Externals) :
    ∀ (l : List Statement) (v : Visitor), (stmtListVisit ext l v).2 = v
  | [], _ => rfl
  | s :: rest, v => by
      simp only [stmtListVisit, stmtVisit_snd ext s v,
        stmtListVisit_snd ext rest v]

theorem elseVisit_snd (ext : Externals) :
    ∀ (o : Option (List Statement)) (v : Visitor), (elseVisit ext o v).2 = v
  | none, _ => rfl
  | some body, v => by
      simp only [elseVisit, stmtListVisit_snd ext body v]

end

theorem write_br_gadget_eq_amended (v : Visitor) :
    write_br_gadget v v.label_list.length = branch_gadget_amended v := by
  cases h : v.label_list.head? with
  | none => simp [write_br_gadget, branch_gadget_amended, h]
  | some k =>
      cases k <;>
        simp [write_br_gadget, branch_gadget_amended, h, br_target]

/-- C1 (code_bug evaluation): `BrTable::visit` writes the AST's raw
relative depths into the jump table and its default, not the absolute
label-stack depths that `write_br_at` stores and the branch gadgets
compare against.  Under a label stack of length 3, a `br_table` whose
single entry and default are the relative depth 0 emits `[0] =0,` and
`or 0`, where the dispatcher convention requires the absolute depth
`3 - 1 - 0 = 2`. -/
theorem c1_main :
    (stmtVisit ext0 (.brTable (.value (.i32 0)) [0] 0)
        ⟨[.forward, .forward, .forward], 0⟩).1 =
      "do local temp = \x7b[0] =0, \x7d desired = temp[0 ] or 0 break end " ∧
    (stmtVisit ext0 (.brTable (.value (.i32 0)) [0] 0)
        ⟨[.forward, .forward, .forward], 0⟩).1 ≠
      "do local temp = \x7b[0] =2, \x7d desired = temp[0 ] or 2 break end " ∧
    3 - 1 - 0 = 2 := by
  refine ⟨rfl, ?_, rfl⟩
  decide

/-- C2 (counterexample): visiting `Backward { body = [Forward {}] }` with
an empty label stack.  The claim predicts the gadget after the inner
`Forward` to compare `desired == 2` (stack length before the pop) with
no `continue` (the just-closed wrapper is a `Forward`); the code instead
emits `desired == 1` with a `continue`, because the comparison level is
the popped label's index and the `continue` is chosen by the label left
innermost after the pop (the enclosing `Backward`). -/
theorem c2_counter :
    (stmtVisit ext0 (.backward [.forward []]) ⟨[], 0⟩).1 =
      "while true do while true do break end if desired then if desired == 1 then desired = nil continue end break end break end " ∧
    (stmtVisit ext0 (.backward [.forward []]) ⟨[], 0⟩).1 ≠
      "while true do while true do break end if desired then if desired == 2 then desired = nil end break end break end " := by
  refine ⟨rfl, ?_⟩
  decide

/-- C2 (amended): immediately after each `Forward`/`Backward`/`If`
wrapper the emitter writes the gadget
`if desired then if desired == rem then desired = nil [continue] end break end`,
where `rem` is the length of the label stack **after** the pop (the
index of the just-popped label), the `continue` is present exactly when
the label remaining innermost after the pop is a `Backward`, and the
gadget is omitted entirely when the label stack is empty after the pop. -/
theorem c2_main (ext : Externals) (v : Visitor) (body : List Statement)
    (cond : Expression) (truthy : List Statement)
    (falsey : Option (List Statement)) :
    (stmtVisit ext (.forward body) v).1 =
      "while true do " ++ (stmtListVisit ext body (v.push .forward)).1 ++
        "break " ++ "end " ++ branch_gadget_amended v ∧
    (stmtVisit ext (.backward body) v).1 =
      "while true do " ++ (stmtListVisit ext body (v.push .backward)).1 ++
        "break " ++ "end " ++ branch_gadget_amended v ∧
    (stmtVisit ext (.ifStat cond truthy falsey) v).1 =
      "while true do " ++ "if " ++ exprVisit ext (v.push .ifElse) cond ++
        "~= 0 then " ++ (stmtListVisit ext truthy (v.push .ifElse)).1 ++
        (elseVisit ext falsey (stmtListVisit ext truthy (v.push .ifElse)).2).1 ++
        "end " ++ "break " ++ "end " ++ branch_gadget_amended v ∧
    branch_gadget_amended ⟨[], v.num_param⟩ = "" := by
  have hf := stmtListVisit_snd ext body (v.push .forward)
  have hb := stmtListVisit_snd ext body (v.push .backward)
  have ht := stmtListVisit_snd ext truthy (v.push .ifElse)
  have he := elseVisit_snd ext falsey (v.push .ifElse)
  have hpop : ∀ k : Label, (v.push k).pop = v := fun _ => rfl
  refine ⟨?_, ?_, ?_, rfl⟩ <;>
    simp only [stmtVisit, hf, hb, ht, he, hpop,
      write_br_gadget_eq_amended]

/-- C3: a `br` of depth 0 emits `continue` when the innermost label is a
`Backward` and `break` otherwise; a `br` of depth `k > 0` under a label
stack of length `L` emits `desired = L - 1 - k` then `break`; and `BrIf`
emits exactly the same text wrapped in `if cond ~= 0 then ... end`.
(The emitted branch body sits inside a `do ... end` block; the bound
`k < L` reflects wasm validity, where the Rust `usize` arithmetic would
panic otherwise.) -/
theorem c3_main (ext : Externals) (v : Visitor) (k : Nat)
    (cond : Expression) (h : k < v.label_list.length) :
    (stmtVisit ext (.br k) v).1 = "do " ++ br_content_spec v k ++ "end " ∧
    (stmtVisit ext (.brIf cond k) v).1 =
      "if " ++ exprVisit ext v cond ++ "~= 0 then " ++
        ("do " ++ br_content_spec v k ++ "end ") ++ "end " := by
  constructor
  · simp only [stmtVisit, write_br_at, br_content_spec]
  · simp only [stmtVisit, write_br_at, br_content_spec,
      string_append_assoc]

/-- C3 witness: depth 0 under an innermost `Backward` yields
`do continue end `, and the `BrIf` wrapping, at a concrete input. -/
theorem c3_witness :
    (stmtVisit ext0 (.br 0) ⟨[.backward], 0⟩).1 =
      "do " ++ br_content_spec ⟨[.backward], 0⟩ 0 ++ "end " ∧
    (stmtVisit ext0 (.brIf (.value (.i32 7)) 0) ⟨[.backward], 0⟩).1 =
      "if " ++ exprVisit ext0 ⟨[.backward], 0⟩ (.value (.i32 7)) ++
        "~= 0 then " ++
        ("do " ++ br_content_spec ⟨[.backward], 0⟩ 0 ++ "end ") ++ "end " :=
  c3_main ext0 ⟨[.backward], 0⟩ 0 (.value (.i32 7)) (by decide)

/-- C9: label-stack balance.  Visiting any statement returns the visitor
(label stack and `num_param`) to its state at entry; a function visit
restores the label stack and only updates `num_param`; and
`gen_func_list` hands every function body a fresh default visitor with
an empty label stack. -/
theorem c9_main :
    (∀ (ext : Externals) (s : Statement) (v : Visitor),
      (stmtVisit ext s v).2 = v) ∧
    (∀ (ext : Externals) (f : Function) (v : Visitor),
      (funcVisit ext f v).2 = ⟨v.label_list, f.num_param⟩) ∧
    (∀ (ext : Externals) (m : Module) (funcs : List Function),
      gen_func_list ext m funcs =
        (funcs.enum).foldl
          (fun acc p =>
            acc ++ write_func_name m p.1 (len_ex m) ++
              (funcVisit ext p.2 ⟨[], 0⟩).1)
          "") := by
  refine ⟨fun ext s v => stmtVisit_snd ext s v, fun ext f v => ?_, ?_⟩
  · show (stmtVisit ext (.forward f.code_body) ⟨v.label_list, f.num_param⟩).2 = _
    exact stmtVisit_snd ext _ _
  · intro ext m funcs
    rfl

/-- If no instruction of the sequence is supported, `write_expression`
falls through to the runtime error call. -/
theorem write_expression_all_none (ext : Externals) :
    ∀ (code : List Instruction), (∀ j ∈ code, write_inst ext j = none) →
      write_expression ext code = "error(\"mundane expression\")"
  | [], _ => rfl
  | inst :: rest, h => by
      rw [write_expression, h inst (List.mem_cons_self inst rest)]
      exact write_expression_all_none ext rest
        (fun j hj => h j (List.mem_cons_of_mem inst hj))

/-- C5: the constant-expression emitter supports exactly the four const
instructions and `get_global` (the latter emitted as
`GLOBAL_LIST[i].value`); a sequence with no supported instruction (in
particular the empty one) emits the runtime call
`error("mundane expression")` into the produced program.  Generation
itself cannot fail here: `write_expression` is total, so the error is
deferred to runtime of the emitted code. -/
theorem c5_main (ext : Externals) (code : List Instruction) (i : Nat)
    (rest : List Instruction) :
    ((∀ j ∈ code, write_inst ext j = none) →
      write_expression ext code = "error(\"mundane expression\")") ∧
    write_expression ext (.getGlobal i :: rest) =
      "GLOBAL_LIST[" ++ toString i ++ "].value " ∧
    (∀ j, (write_inst ext j).isSome = true ↔ const_supported j) := by
  refine ⟨write_expression_all_none ext code, rfl, fun j => ?_⟩
  cases j <;> simp [write_inst, const_supported]

/-- C5 witness: a sequence of two unsupported instructions emits the
error call; `get_global 5` emits its list access. -/
theorem c5_witness :
    write_inst ext0 (.unsupported 0) = none ∧
    write_expression ext0 [.unsupported 0, .unsupported 1] =
      "error(\"mundane expression\")" ∧
    write_expression ext0 (.getGlobal 5 :: [.i32Const 3]) =
      "GLOBAL_LIST[" ++ toString 5 ++ "].value " :=
  ⟨rfl,
    (c5_main ext0 [.unsupported 0, .unsupported 1] 5 [.i32Const 3]).1
      (by decide),
    (c5_main ext0 [.unsupported 0, .unsupported 1] 5 [.i32Const 3]).2.1⟩

/-- C10: `write_expression` emits only the first supported instruction,
silently skipping the unsupported ones before it and ignoring
everything after it. -/
theorem c10_main (ext : Externals) :
    ∀ (pre : List Instruction) (j : Instruction) (rest : List Instruction)
      (s : String), (∀ x ∈ pre, write_inst ext x = none) →
      write_inst ext j = some s →
      write_expression ext (pre ++ j :: rest) = s
  | [], j, rest, s, _, h2 => by rw [List.nil_append, write_expression, h2]
  | x :: pre, j, rest, s, h1, h2 => by
      rw [List.cons_append, write_expression,
        h1 x (List.mem_cons_self x pre)]
      exact c10_main ext pre j rest s
        (fun y hy => h1 y (List.mem_cons_of_mem x hy)) h2

/-- C10 witness: an unsupported instruction, then `get_global 2`, then a
trailing `i32.const 7`: only the `get_global` is emitted. -/
theorem c10_witness :
    write_inst ext0 (.unsupported 3) = none ∧
    write_inst ext0 (.getGlobal 2) =
      some ("GLOBAL_LIST[" ++ toString 2 ++ "].value ") ∧
    write_expression ext0
        ([.unsupported 3] ++ .getGlobal 2 :: [.i32Const 7]) =
      "GLOBAL_LIST[" ++ toString 2 ++ "].value " :=
  ⟨rfl, rfl,
    c10_main ext0 [.unsupported 3] (.getGlobal 2) [.i32Const 7]
      ("GLOBAL_LIST[" ++ toString 2 ++ "].value ") (by decide) rfl⟩

/-- C6: on success, the transpiled output decomposes around exactly the
four preallocation statements, one per index-space kind, each sized with
`table.create(n - 1)` where `n` is the imports-plus-definitions space of
that kind; the subtraction is `Nat` (saturating) subtraction, so `n = 0`
yields `table.create(0)`. -/
theorem c6_main (ext : Externals) (m : Module) (out : String)
    (name : String) (n : Nat) (h : transpile ext m = some out) :
    out =
      "local rt = require(script.Runtime)" ++
      gen_localize ext (m.code_section.getD []) ++
      "local ZERO_i32 = 0 " ++ "local ZERO_i64 = 0 " ++
      "local ZERO_f32 = 0.0 " ++ "local ZERO_f64 = 0.0 " ++
      write_list ("FUNC_LIST") (functions_space m) ++
      write_list ("TABLE_LIST") (table_space m) ++
      write_list ("MEMORY_LIST") (memory_space m) ++
      write_list ("GLOBAL_LIST") (globals_space m) ++
      gen_func_list ext m (m.code_section.getD []) ++
      (gen_start_point ext m).getD ("") ∧
    write_list name n =
      "local " ++ name ++ " = table.create(" ++ toString (n - 1) ++ ")" ∧
    write_list name 0 =
      "local " ++ name ++ " = table.create(" ++ toString (0 : Nat) ++ ")" := by
  refine ⟨?_, rfl, rfl⟩
  cases hc : m.code_section with
  | none => rw [transpile, hc] at h; simp at h
  | some funcs =>
      cases hs : gen_start_point ext m with
      | none => rw [transpile, hc] at h; simp [hs] at h
      | some startp =>
          rw [transpile, hc] at h
          simp only [Option.some_bind, hs, Option.map_some',
            Option.some.injEq] at h
          exact h.symm

/-- C6 witness: the minimal module transpiles successfully; all four
spaces are 0 and the `FUNC_LIST` statement at size 0 is
`table.create(0)`. -/
theorem c6_witness :
    (transpile ext0 m0).getD ("") =
      "local rt = require(script.Runtime)" ++
      gen_localize ext0 (m0.code_section.getD []) ++
      "local ZERO_i32 = 0 " ++ "local ZERO_i64 = 0 " ++
      "local ZERO_f32 = 0.0 " ++ "local ZERO_f64 = 0.0 " ++
      write_list ("FUNC_LIST") (functions_space m0) ++
      write_list ("TABLE_LIST") (table_space m0) ++
      write_list ("MEMORY_LIST") (memory_space m0) ++
      write_list ("GLOBAL_LIST") (globals_space m0) ++
      gen_func_list ext0 m0 (m0.code_section.getD []) ++
      (gen_start_point ext0 m0).getD ("") ∧
    write_list ("FUNC_LIST") (functions_space m0) =
      "local " ++ "FUNC_LIST" ++ " = table.create(" ++
        toString (functions_space m0 - 1) ++ ")" ∧
    write_list ("FUNC_LIST") 0 =
      "local " ++ "FUNC_LIST" ++ " = table.create(" ++
        toString (0 : Nat) ++ ")" :=
  c6_main ext0 m0 ((transpile ext0 m0).getD ("")) ("FUNC_LIST")
    (functions_space m0) rfl

theorem elem_foldl_none (ext : Externals) :
    ∀ (segs : List ElementSegment),
      segs.foldl (elem_step ext) none = none
  | [] => rfl
  | _ :: segs => elem_foldl_none ext segs

theorem elem_foldl_offset_none (ext : Externals) :
    ∀ (segs : List ElementSegment) (acc : Option String)
      (seg : ElementSegment), seg ∈ segs → seg.offset = none →
      segs.foldl (elem_step ext) acc = none
  | s :: segs, acc, seg, hmem, hoff => by
      rcases List.mem_cons.1 hmem with rfl | hmem
      · rw [List.foldl_cons]
        have : elem_step ext acc seg = none := by
          cases acc <;> simp [elem_step, hoff]
        rw [this]
        exact elem_foldl_none ext segs
      · exact elem_foldl_offset_none ext segs _ seg hmem hoff

theorem data_foldl_none (ext : Externals) :
    ∀ (segs : List DataSegment),
      segs.foldl (data_step ext) none = none
  | [] => rfl
  | _ :: segs => data_foldl_none ext segs

theorem data_foldl_offset_none (ext : Externals) :
    ∀ (segs : List DataSegment) (acc : Option String)
      (seg : DataSegment), seg ∈ segs → seg.offset = none →
      segs.foldl (data_step ext) acc = none
  | s :: segs, acc, seg, hmem, hoff => by
      rcases List.mem_cons.1 hmem with rfl | hmem
      · rw [List.foldl_cons]
        have : data_step ext acc seg = none := by
          cases acc <;> simp [data_step, hoff]
        rw [this]
        exact data_foldl_none ext segs
      · exact data_foldl_offset_none ext segs _ seg hmem hoff

/-- C8: `transpile` is partial at the public interface.  It returns
`none` (the Rust code panics, rather than returning success or the
sink's error) when the module has no code section, and likewise when
any element segment or any data segment carries no offset expression;
success is possible only when all of these are present. -/
theorem c8_main (ext : Externals) (m : Module) :
    (m.code_section = none → transpile ext m = none) ∧
    (∀ (segs : List ElementSegment) (seg : ElementSegment),
      m.elements_section = some segs → seg ∈ segs → seg.offset = none →
      transpile ext m = none) ∧
    (∀ (segs : List DataSegment) (seg : DataSegment),
      m.data_section = some segs → seg ∈ segs → seg.offset = none →
      transpile ext m = none) := by
  refine ⟨fun h => ?_, fun segs seg hsec hmem hoff => ?_,
    fun segs seg hsec hmem hoff => ?_⟩
  · rw [transpile, h]
    rfl
  · have he : gen_element_list ext m = none := by
      rw [gen_element_list, hsec]
      exact elem_foldl_offset_none ext segs _ seg hmem hoff
    have hsp : gen_start_point ext m = none := by
      rw [gen_start_point, he]
      rfl
    rw [transpile, hsp]
    cases m.code_section <;> rfl
  · have hd : gen_data_list ext m = none := by
      rw [gen_data_list, hsec]
      exact data_foldl_offset_none ext segs _ seg hmem hoff
    have hsp : gen_start_point ext m = none := by
      rw [gen_start_point, hd]
      cases gen_element_list ext m <;> rfl
    rw [transpile, hsp]
    cases m.code_section <;> rfl

/-- C8 witness: the three panic modes at concrete modules — no code
section; an element segment without offset; a data segment without
offset. -/
theorem c8_witness :
    transpile ext0 { m0 with code_section := none } = none ∧
    transpile ext0
      { m0 with elements_section := some [⟨0, none, []⟩] } = none ∧
    transpile ext0 { m0 with data_section := some [⟨0, none, []⟩] } = none :=
  ⟨(c8_main ext0 { m0 with code_section := none }).1 rfl,
    (c8_main ext0
        { m0 with elements_section := some [⟨0, none, []⟩] }).2.1
      [⟨0, none, []⟩] ⟨0, none, []⟩ rfl (List.mem_singleton.mpr rfl) rfl,
    (c8_main ext0 { m0 with data_section := some [⟨0, none, []⟩] }).2.2
      [⟨0, none, []⟩] ⟨0, none, []⟩ rfl (List.mem_singleton.mpr rfl) rfl⟩

theorem string_data_inj {a b : String} (h : a.data = b.data) : a = b := by
  cases a; cases b; exact congrArg String.mk h

theorem pairLt_irrefl (a : String × String) : ¬ pairLt a a := by
  rintro (h | ⟨-, h⟩) <;> exact lt_irrefl _ h

theorem pairLt_trans {a b c : String × String}
    (h1 : pairLt a b) (h2 : pairLt b c) : pairLt a c := by
  rcases h1 with h1 | ⟨e1, h1⟩ <;> rcases h2 with h2 | ⟨e2, h2⟩
  · exact Or.inl (lt_trans h1 h2)
  · exact Or.inl (e2 ▸ h1)
  · exact Or.inl (e1 ▸ h2)
  · exact Or.inr ⟨e1.trans e2, lt_trans h1 h2⟩

theorem pairLt_asymm {a b : String × String}
    (h1 : pairLt a b) (h2 : pairLt b a) : False :=
  pairLt_irrefl a (pairLt_trans h1 h2)

theorem pairLt_of_not {a b : String × String}
    (h1 : ¬ pairLt a b) (h2 : a ≠ b) : pairLt b a := by
  rcases lt_trichotomy a.1.data b.1.data with hf | hf | hf
  · exact absurd (Or.inl hf) h1
  · have e1 : a.1 = b.1 := string_data_inj hf
    rcases lt_trichotomy a.2.data b.2.data with hs | hs | hs
    · exact absurd (Or.inr ⟨e1, hs⟩) h1
    · exact absurd (Prod.ext e1 (string_data_inj hs)) h2
    · exact Or.inr ⟨e1.symm, hs⟩
  · exact Or.inl hf

theorem mem_btreeInsert {q x : String × String} :
    ∀ {l : List (String × String)},
      q ∈ btreeInsert l x ↔ q = x ∨ q ∈ l := by
  intro l
  induction l with
  | nil => simp [btreeInsert]
  | cons y t ih =>
      by_cases h1 : pairLt x y
      · simp [btreeInsert, h1]
      · by_cases h2 : x = y
        · subst h2
          rw [btreeInsert, if_neg h1, if_pos rfl]
          simp only [List.mem_cons]
          tauto
        · rw [btreeInsert, if_neg h1, if_neg h2]
          simp only [List.mem_cons, ih]
          tauto

theorem pairwise_btreeInsert {x : String × String} :
    ∀ {l : List (String × String)}, l.Pairwise pairLt →
      (btreeInsert l x).Pairwise pairLt := by
  intro l
  induction l with
  | nil => intro _; simp [btreeInsert]
  | cons y t ih =>
      intro hp
      rcases List.pairwise_cons.1 hp with ⟨hy, ht⟩
      by_cases h1 : pairLt x y
      · rw [btreeInsert, if_pos h1]
        refine List.pairwise_cons.2 ⟨?_, hp⟩
        intro z hz
        rcases List.mem_cons.1 hz with rfl | hz
        · exact h1
        · exact pairLt_trans h1 (hy z hz)
      · by_cases h2 : x = y
        · subst h2
          rw [btreeInsert, if_neg h1, if_pos rfl]
          exact hp
        · rw [btreeInsert, if_neg h1, if_neg h2]
          refine List.pairwise_cons.2 ⟨?_, ih ht⟩
          intro z hz
          rcases mem_btreeInsert.1 hz with rfl | hz
          · exact pairLt_of_not h1 h2
          · exact hy z hz

theorem mem_foldl_btreeInsert {q : String × String} :
    ∀ (xs : List (String × String)) (s : List (String × String)),
      q ∈ xs.foldl btreeInsert s ↔ q ∈ xs ∨ q ∈ s := by
  intro xs
  induction xs with
  | nil => simp
  | cons x t ih =>
      intro s
      rw [List.foldl_cons, ih]
      simp only [List.mem_cons, mem_btreeInsert]
      tauto

theorem pairwise_foldl_btreeInsert :
    ∀ (xs : List (String × String)) (s : List (String × String)),
      s.Pairwise pairLt → (xs.foldl btreeInsert s).Pairwise pairLt := by
  intro xs
  induction xs with
  | nil => exact fun s h => h
  | cons x t ih =>
      intro s hs
      rw [List.foldl_cons]
      exact ih _ (pairwise_btreeInsert hs)

theorem mem_loc_set_aux (ext : Externals) (q : String × String) :
    ∀ (funcs : List Function) (s : List (String × String)),
      q ∈ funcs.foldl
          (fun s f => (ext.localizeVisit f).foldl btreeInsert s) s ↔
        (∃ f ∈ funcs, q ∈ ext.localizeVisit f) ∨ q ∈ s := by
  intro funcs
  induction funcs with
  | nil => simp
  | cons f t ih =>
      intro s
      rw [List.foldl_cons, ih, mem_foldl_btreeInsert]
      simp only [List.mem_cons]
      constructor
      · rintro (⟨g, hg, hq⟩ | hq | hq)
        · exact Or.inl ⟨g, Or.inr hg, hq⟩
        · exact Or.inl ⟨f, Or.inl rfl, hq⟩
        · exact Or.inr hq
      · rintro (⟨g, rfl | hg, hq⟩ | hq)
        · exact Or.inr (Or.inl hq)
        · exact Or.inl ⟨g, hg, hq⟩
        · exact Or.inr (Or.inr hq)

theorem pairwise_loc_set (ext : Externals) (funcs : List Function) :
    (loc_set ext funcs).Pairwise pairLt := by
  rw [loc_set]
  generalize hgen : ([] : List (String × String)) = s
  have hs : s.Pairwise pairLt := by rw [← hgen]; exact List.Pairwise.nil
  clear hgen
  induction funcs generalizing s with
  | nil => exact hs
  | cons f t ih =>
      rw [List.foldl_cons]
      exact ih _ (pairwise_foldl_btreeInsert _ _ hs)

theorem mem_loc_set (ext : Externals) (funcs : List Function)
    (q : String × String) :
    q ∈ loc_set ext funcs ↔ ∃ f ∈ funcs, q ∈ ext.localizeVisit f := by
  rw [loc_set, mem_loc_set_aux]
  simp

/-- Two strictly sorted lists with the same members are equal. -/
theorem pairwise_mem_ext :
    ∀ (l1 l2 : List (String × String)), l1.Pairwise pairLt →
      l2.Pairwise pairLt → (∀ p, p ∈ l1 ↔ p ∈ l2) → l1 = l2
  | [], [], _, _, _ => rfl
  | [], b :: t2, _, _, hm =>
      absurd ((hm b).2 (List.mem_cons_self b t2)) (List.not_mem_nil b)
  | a :: t1, [], _, _, hm =>
      absurd ((hm a).1 (List.mem_cons_self a t1)) (List.not_mem_nil a)
  | a :: t1, b :: t2, h1, h2, hm => by
      rcases List.pairwise_cons.1 h1 with ⟨ha, ht1⟩
      rcases List.pairwise_cons.1 h2 with ⟨hb, ht2⟩
      have hab : a = b := by
        rcases List.mem_cons.1 ((hm a).1 (List.mem_cons_self a t1)) with
          h | h
        · exact h
        · rcases List.mem_cons.1 ((hm b).2 (List.mem_cons_self b t2)) with
            h' | h'
          · exact h'.symm
          · exact (pairLt_asymm (ha b h') (hb a h)).elim
      subst hab
      have htm : ∀ p, p ∈ t1 ↔ p ∈ t2 := by
        intro p
        constructor
        · intro hp
          rcases List.mem_cons.1 ((hm p).1 (List.mem_cons_of_mem a hp)) with
            rfl | h
          · exact absurd (ha p hp) (pairLt_irrefl p)
          · exact h
        · intro hp
          rcases List.mem_cons.1 ((hm p).2 (List.mem_cons_of_mem a hp)) with
            rfl | h
          · exact absurd (hb p hp) (pairLt_irrefl p)
          · exact h
      rw [pairwise_mem_ext t1 t2 ht1 ht2 htm]

/-- C7: the helper localizations are deterministic.  The collected set
`loc_set` is strictly sorted by `(category, name)` and duplicate-free,
it holds exactly the pairs some function's localize analysis returns,
`gen_localize` renders it in that canonical order, and consequently any
two inputs demanding the same set of helpers produce byte-identical
localization text.  (`transpile` itself is a pure function of the module
and the externals, so output is identical across runs and instances by
construction.) -/
theorem c7_main (ext : Externals) (funcs : List Function) :
    (loc_set ext funcs).Pairwise pairLt ∧
    (loc_set ext funcs).Nodup ∧
    (∀ p, p ∈ loc_set ext funcs ↔ ∃ f ∈ funcs, p ∈ ext.localizeVisit f) ∧
    gen_localize ext funcs =
      (loc_set ext funcs).foldl
        (fun acc p =>
          acc ++ "local " ++ p.1 ++ "_" ++ p.2 ++ " = rt." ++ p.1 ++ "." ++
            p.2 ++ " ")
        "" ∧
    (∀ (ext2 : Externals) (funcs2 : List Function),
      (∀ p, (∃ f ∈ funcs, p ∈ ext.localizeVisit f) ↔
        (∃ f ∈ funcs2, p ∈ ext2.localizeVisit f)) →
      gen_localize ext funcs = gen_localize ext2 funcs2) := by
  have hp := pairwise_loc_set ext funcs
  refine ⟨hp, ?_, mem_loc_set ext funcs, rfl, ?_⟩
  · refine List.Pairwise.imp ?_ hp
    intro a b hlt heq
    exact pairLt_irrefl b (heq ▸ hlt)
  · intro ext2 funcs2 hiff
    have : loc_set ext funcs = loc_set ext2 funcs2 := by
      refine pairwise_mem_ext _ _ hp (pairwise_loc_set ext2 funcs2) ?_
      intro p
      rw [mem_loc_set, mem_loc_set]
      exact hiff p
    rw [gen_localize, gen_localize, this]

/-- C7 witness: two different analyzer outcomes demanding the same set
of helpers (one with a duplicated, unsorted list) render the same
localization text. -/
theorem c7_witness :
    gen_localize
        ⟨fun _ => "", fun _ => "", fun _ =>
          [("math", "add"), ("i64", "div"), ("math", "add")], fun _ => []⟩
        [⟨0, [], 0, []⟩] =
      gen_localize
        ⟨fun _ => "", fun _ => "", fun _ =>
          [("i64", "div"), ("math", "add")], fun _ => []⟩
        [⟨0, [], 0, []⟩] :=
  (c7_main
      ⟨fun _ => "", fun _ => "", fun _ =>
        [("math", "add"), ("i64", "div"), ("math", "add")], fun _ => []⟩
      [⟨0, [], 0, []⟩]).2.2.2.2
    ⟨fun _ => "", fun _ => "", fun _ =>
      [("i64", "div"), ("math", "add")], fun _ => []⟩
    [⟨0, [], 0, []⟩]
    (by intro p; simp; tauto)

end Wlausam
